import Mathlib

/-!
Verification of the scrape orchestration engine of `spider_v2.py`
(ai-goofish-monitor).

The Python source is shallowly embedded: dynamic (JSON-shaped) Python
values become the inductive type `PyVal`; fallible operations become
`Option`/`Except`; the stateful scraping loop of `scrape_xianyu` becomes a
pure fold over the environment's answers (pages of parsed items, detail
payloads, AI responses, write results) that produces an explicit event
trace.  Randomness (`random.randint`) is modelled by passing the random
draw explicitly through `pyRandint`, which keeps the documented bounds.
-/

namespace Spider

/-- Dynamic Python value, as produced by `json.loads` and passed around the
scraper: `null`, booleans, integers, strings, lists and (string-keyed)
dicts.  Floats are not modelled; none of the verified code paths stores a
float in one of these values. -/
inductive PyVal where
  | none : PyVal
  | bool (b : Bool) : PyVal
  | int (n : Int) : PyVal
  | str (s : String) : PyVal
  | list (xs : List PyVal) : PyVal
  | dict (kvs : List (String × PyVal)) : PyVal

/-- Subscript used in a `safe_get` path: a string key or an integer index. -/
inductive PyKey where
  | s (k : String) : PyKey
  | i (n : Int) : PyKey

/-- Python list indexing `xs[i]` with negative-index semantics: a negative
`i` counts from the end; an index out of range is an `IndexError`,
modelled as `Option.none`. -/
def pyListGet {α : Type} (xs : List α) (i : Int) : Option α :=
  let j : Int := if i < 0 then i + xs.length else i
  if j < 0 then Option.none else xs.get? j.toNat

/-- Python dict lookup on a (string-keyed) association list; on duplicate
keys the last binding wins, matching `json.loads` object semantics. -/
def pyLookup (kvs : List (String × PyVal)) (k : String) : Option PyVal :=
  (kvs.reverse.find? (fun p => p.1 == k)).map (fun p => p.2)

/-- One Python subscription step `data[key]`, as exercised by `safe_get`:
`Option.none` models a raised `KeyError` (missing dict key, or non-string
key on a dict), `TypeError` (subscripting a non-subscriptable value, or a
string key on a list/string) or `IndexError` (index out of range).  These
three are exactly the exception types `data[key]` can raise on these value
shapes, and exactly the ones `safe_get` catches. -/
def pyIndex : PyVal → PyKey → Option PyVal
  | PyVal.dict kvs, PyKey.s k => pyLookup kvs k
  | PyVal.dict _, PyKey.i _ => Option.none
  | PyVal.list xs, PyKey.i i => pyListGet xs i
  | PyVal.list _, PyKey.s _ => Option.none
  | PyVal.str s, PyKey.i i => (pyListGet s.data i).map (fun c => PyVal.str (String.mk [c]))
  | PyVal.str _, PyKey.s _ => Option.none
  | _, _ => Option.none

/-- Embedding of `safe_get` (spider_v2.py lines 308-315): walk the key
path, returning `default` as soon as one subscription step fails; the
`default` parameter defaults to the string `"Not available"` exactly as in
the source. -/
def safe_get (data : PyVal) (keys : List PyKey)
    (default : PyVal := PyVal.str "Not available") : PyVal :=
  match keys with
  | [] => data
  | k :: rest =>
    match pyIndex data k with
    | some d => safe_get d rest default
    | Option.none => default

/-- Specification-side nested lookup: the composite path lookup succeeding
iff every single step succeeds. -/
def pyGetPath (data : PyVal) (keys : List PyKey) : Option PyVal :=
  match keys with
  | [] => some data
  | k :: rest =>
    match pyIndex data k with
    | some d => pyGetPath d rest
    | Option.none => Option.none

/-- Embedding of Python's `link.split('&', 1)` on the character list of
`link`: split at the first occurrence of the separator only. -/
def pySplit1 (sep : Char) : List Char → List (List Char)
  | [] => [[]]
  | c :: cs =>
    if c = sep then [[], cs]
    else
      match pySplit1 sep cs with
      | [] => [[c]]
      | p :: rest => (c :: p) :: rest

/-- Embedding of `get_link_unique_key` (spider_v2.py lines 91-93):
`link.split('&', 1)[0]`. -/
def get_link_unique_key (link : String) : String :=
  String.mk ((pySplit1 '&' link.data).headD link.data)

/-- JSON whitespace skipping, as done between tokens by `json.loads`. -/
def skipWs : List Char → List Char
  | [] => []
  | c :: rest =>
    if c = ' ' ∨ c = '\n' ∨ c = '\t' ∨ c = '\r' then skipWs rest else c :: rest

/-- Body of a JSON string after the opening quote; escape sequences are not
modelled (an input containing a backslash fails to parse). -/
def parseStrAux (acc : List Char) : List Char → Option (String × List Char)
  | [] => Option.none
  | c :: rest =>
    if c = '"' then some (String.mk acc.reverse, rest)
    else if c = '\\' then Option.none
    else parseStrAux (c :: acc) rest

/-- Consume a maximal run of decimal digits, accumulating their value. -/
def parseDigitsAux (acc : Nat) : List Char → Nat × List Char
  | [] => (acc, [])
  | c :: rest =>
    if c.isDigit then parseDigitsAux (acc * 10 + (c.toNat - 48)) rest
    else (acc, c :: rest)

/-- A JSON integer literal with optional leading minus sign. -/
def parseIntTok : List Char → Option (Int × List Char)
  | [] => Option.none
  | '-' :: rest =>
    match rest with
    | c :: rest' =>
      if c.isDigit then
        match parseDigitsAux (c.toNat - 48) rest' with
        | (n, r) => some (-(n : Int), r)
      else Option.none
    | [] => Option.none
  | c :: rest =>
    if c.isDigit then
      match parseDigitsAux (c.toNat - 48) rest with
      | (n, r) => some ((n : Int), r)
    else Option.none

mutual

/-- Modelled from Python's stdlib `json.loads` value grammar (objects,
arrays, strings, integers, `true`/`false`/`null`), restricted to the
fragment without floats, exponents and string escapes; faithful on inputs
avoiding those.  The fuel argument bounds recursion depth. -/
def parseVal : Nat → List Char → Option (PyVal × List Char)
  | 0, _ => Option.none
  | f + 1, cs =>
    match skipWs cs with
    | '{' :: rest =>
      match skipWs rest with
      | '}' :: r2 => some (PyVal.dict [], r2)
      | _ => (parseObjItems f rest).map (fun p => (PyVal.dict p.1, p.2))
    | '[' :: rest =>
      match skipWs rest with
      | ']' :: r2 => some (PyVal.list [], r2)
      | _ => (parseArrItems f rest).map (fun p => (PyVal.list p.1, p.2))
    | '"' :: rest => (parseStrAux [] rest).map (fun p => (PyVal.str p.1, p.2))
    | 't' :: 'r' :: 'u' :: 'e' :: rest => some (PyVal.bool true, rest)
    | 'f' :: 'a' :: 'l' :: 's' :: 'e' :: rest => some (PyVal.bool false, rest)
    | 'n' :: 'u' :: 'l' :: 'l' :: rest => some (PyVal.none, rest)
    | cs' => (parseIntTok cs').map (fun p => (PyVal.int p.1, p.2))

/-- Comma-separated array items up to the closing bracket. -/
def parseArrItems : Nat → List Char → Option (List PyVal × List Char)
  | 0, _ => Option.none
  | f + 1, cs =>
    match parseVal f cs with
    | Option.none => Option.none
    | some (v, rest) =>
      match skipWs rest with
      | ',' :: r2 => (parseArrItems f r2).map (fun p => (v :: p.1, p.2))
      | ']' :: r2 => some ([v], r2)
      | _ => Option.none

/-- Comma-separated `"key": value` members up to the closing brace. -/
def parseObjItems : Nat → List Char → Option (List (String × PyVal) × List Char)
  | 0, _ => Option.none
  | f + 1, cs =>
    match skipWs cs with
    | '"' :: rest =>
      match parseStrAux [] rest with
      | Option.none => Option.none
      | some (k, r1) =>
        match skipWs r1 with
        | ':' :: r2 =>
          match parseVal f r2 with
          | Option.none => Option.none
          | some (v, r3) =>
            match skipWs r3 with
            | ',' :: r4 => (parseObjItems f r4).map (fun p => ((k, v) :: p.1, p.2))
            | '}' :: r4 => some ([(k, v)], r4)
            | _ => Option.none
        | _ => Option.none
    | _ => Option.none

end

/-- Modelled from Python's stdlib `json.loads`: parse one JSON value and
require only trailing whitespace after it; any parse error (a raised
`json.JSONDecodeError`) is `Option.none`. -/
def pyJsonLoads (s : String) : Option PyVal :=
  match parseVal (2 * s.length + 4) s.data with
  | some (v, rest) => if skipWs rest = [] then some v else Option.none
  | Option.none => Option.none

/-- First index at which the predicate holds. -/
def findIdxAux (p : Char → Bool) : List Char → Option Nat
  | [] => Option.none
  | c :: cs => if p c then some 0 else (findIdxAux p cs).map (· + 1)

/-- Model of Python `s.find(c)`: index of the first occurrence of `c`,
with `Option.none` standing for the sentinel `-1`. -/
def pyFind (s : String) (c : Char) : Option Nat :=
  findIdxAux (fun x => x = c) s.data

/-- Model of Python `s.rfind(c)`: index of the last occurrence of `c`,
with `Option.none` standing for the sentinel `-1`. -/
def pyRfind (s : String) (c : Char) : Option Nat :=
  (findIdxAux (fun x => x = c) s.data.reverse).map
    (fun i => s.data.length - 1 - i)

/-- Model of the Python slice `s[a:b]` for non-negative bounds (the only
shape used here); out-of-range bounds clamp, and `a ≥ b` yields the empty
string, as in Python. -/
def pySlice (s : String) (a b : Nat) : String :=
  String.mk ((s.data.drop a).take (b - a))

/-- Python's `isinstance(x, int)` view of a dynamic value: `bool` is a
subclass of `int` in Python (`True` counts as `1`, `False` as `0`); every
other non-`int` shape fails the check. -/
def pyAsInt : PyVal → Option Int
  | PyVal.int n => some n
  | PyVal.bool b => some (if b then 1 else 0)
  | _ => Option.none

/-- Python's built-in `round` to the nearest integer with ties going to
the even neighbour, modelled on exact rationals.  (The source applies it
to an IEEE-double quotient; exact rational round-half-even agrees except
on quotients that are decimal ties yet not exactly representable in
binary, which the verified facts below never produce.) -/
def pyRound (q : ℚ) : ℤ :=
  let f := q.floor
  let r := q - f
  if r < 1 / 2 then f
  else if 1 / 2 < r then f + 1
  else if f % 2 = 0 then f else f + 1

/-- The source's `DAYS_IN_YEAR = 365.25`, an exactly representable
constant, as a rational. -/
def daysInYear : ℚ := 1461 / 4

/-- The source's `DAYS_IN_MONTH = DAYS_IN_YEAR / 12` (= 30.4375). -/
def daysInMonth : ℚ := daysInYear / 12

/-- The source's `years = math.floor(total_days / DAYS_IN_YEAR)`. -/
def regYears (n : Int) : Int := ((n : ℚ) / daysInYear).floor

/-- The source's `remaining_days = total_days - (years * DAYS_IN_YEAR)`. -/
def regRemaining (n : Int) : ℚ := (n : ℚ) - (regYears n : ℚ) * daysInYear

/-- The source's `months = round(remaining_days / DAYS_IN_MONTH)`. -/
def regMonthsRaw (n : Int) : Int := pyRound (regRemaining n / daysInMonth)

/-- Years after the source's carry-over step (`months == 12` adds a
year). -/
def regYearsFinal (n : Int) : Int :=
  if regMonthsRaw n = 12 then regYears n + 1 else regYears n

/-- Months after the source's carry-over step (`months == 12` resets to
0). -/
def regMonthsFinal (n : Int) : Int :=
  if regMonthsRaw n = 12 then 0 else regMonthsRaw n

/-- Embedding of `format_registration_days` (spider_v2.py lines 375-408):
non-`int` input (per `isinstance`, with Python `bool` counting as `int`)
or a day count `≤ 0` yields `"Unknown"`; otherwise years and rounded
months with carry-over select one of the four phrase shapes. -/
def format_registration_days (total_days : PyVal) : String :=
  match pyAsInt total_days with
  | Option.none => "Unknown"
  | some n =>
    if n ≤ 0 then "Unknown"
    else
      let years := regYearsFinal n
      let months := regMonthsFinal n
      if 0 < years ∧ 0 < months then
        "On Xianyu for " ++ toString years ++ " years and " ++
          toString months ++ " months"
      else if 0 < years ∧ months = 0 then
        "On Xianyu for " ++ toString years ++ " years"
      else if years = 0 ∧ 0 < months then
        "On Xianyu for " ++ toString months ++ " months"
      else
        "On Xianyu for less than a month"

/-- Embedding of the response-parsing tail of `get_ai_analysis`
(spider_v2.py lines 637-655): find the first `'{'` and the last `'}'`;
when both exist decode the inclusive slice between them, otherwise fall
back to decoding the entire response text.  `decode` is the JSON decoder
(`json.loads`); `Option.none` models the `json.JSONDecodeError` that the
source re-raises. -/
def get_ai_analysis_parse (decode : String → Option PyVal) (content : String) :
    Option PyVal :=
  match pyFind content '{', pyRfind content '}' with
  | some i, some j => decode (pySlice content i (j + 1))
  | some _, Option.none => decode content
  | Option.none, _ => decode content

/-- Whether the first list is a prefix of the second. -/
def listStartsWith : List Char → List Char → Bool
  | [], _ => true
  | _ :: _, [] => false
  | n :: ns, h :: hs => n == h && listStartsWith ns hs

/-- Whether the first list occurs contiguously inside the second. -/
def listHasInfix (needle : List Char) : List Char → Bool
  | [] => listStartsWith needle []
  | h :: hs => listStartsWith needle (h :: hs) || listHasInfix needle hs

/-- Python's substring operator `needle in hay` for strings. -/
def pyInStr (needle hay : String) : Bool :=
  listHasInfix needle.data hay.data

/-- The `role_tag` extraction of `calculate_reputation_from_ratings`:
`safe_get(safe_get(card, 'cardData', default={}), 'rateTagList', 0,
'text', default='')`. -/
def repCardRole (card : PyVal) : PyVal :=
  safe_get (safe_get card [PyKey.s "cardData"] (PyVal.dict []))
    [PyKey.s "rateTagList", PyKey.i 0, PyKey.s "text"] (PyVal.str "")

/-- The `rate_type` extraction of `calculate_reputation_from_ratings`:
`safe_get(data, 'rate')` with the implicit `"Not available"` default. -/
def repCardRate (card : PyVal) : PyVal :=
  safe_get (safe_get card [PyKey.s "cardData"] (PyVal.dict [])) [PyKey.s "rate"]

/-- Python `==` against the integer literal `1` as used by
`rate_type == 1`: `True == 1` holds in Python; no other non-`int` value
equals `1`. -/
def pyEqOne : PyVal → Bool
  | PyVal.int n => n == 1
  | PyVal.bool b => b
  | _ => false

/-- One iteration of the rating-card loop of
`calculate_reputation_from_ratings` (spider_v2.py lines 121-134) on the
accumulator (seller_total, seller_positive, buyer_total, buyer_positive);
a non-string `role_tag` makes the Python `in` operator raise `TypeError`,
modelled as `Except.error`. -/
def repStep (acc : Nat × Nat × Nat × Nat) (card : PyVal) :
    Except String (Nat × Nat × Nat × Nat) :=
  match repCardRole card with
  | PyVal.str s =>
    if pyInStr "卖家" s || pyInStr "Seller" s then
      Except.ok (acc.1 + 1,
        acc.2.1 + (if pyEqOne (repCardRate card) then 1 else 0),
        acc.2.2.1, acc.2.2.2)
    else if pyInStr "买家" s || pyInStr "Buyer" s then
      Except.ok (acc.1, acc.2.1,
        acc.2.2.1 + 1,
        acc.2.2.2 + (if pyEqOne (repCardRate card) then 1 else 0))
    else
      Except.ok acc
  | _ => Except.error "TypeError"

/-- The rating-card loop folded over the whole list. -/
def repCountsAux (acc : Nat × Nat × Nat × Nat) :
    List PyVal → Except String (Nat × Nat × Nat × Nat)
  | [] => Except.ok acc
  | c :: cs =>
    match repStep acc c with
    | Except.ok acc' => repCountsAux acc' cs
    | Except.error e => Except.error e

/-- The four counters of `calculate_reputation_from_ratings`, all starting
at zero. -/
def repCounts (cards : List PyVal) : Except String (Nat × Nat × Nat × Nat) :=
  repCountsAux (0, 0, 0, 0) cards

/-- Model of the Python float format `f"{x:.2f}"` on an exact rational:
round to hundredths with ties to even and print with two decimal places.
(Python applies `.2f` to an IEEE double; exact rational rounding agrees
except on quotients that are decimal ties not exactly representable in
binary.) -/
def pyFormatF2 (q : ℚ) : String :=
  let h := pyRound (q * 100)
  let a := h.natAbs
  (if h < 0 then "-" else "") ++ toString (a / 100) ++ "." ++
    (if a % 100 < 10 then "0" ++ toString (a % 100) else toString (a % 100))

/-- The dictionary returned by `calculate_reputation_from_ratings`. -/
structure RepStats where
  positive_reviews_as_seller : String
  positive_rate_as_seller : String
  positive_reviews_as_buyer : String
  positive_rate_as_buyer : String

/-- Embedding of `calculate_reputation_from_ratings` (spider_v2.py lines
114-145): count seller/buyer cards and their positive ratings, then format
`"S/N"` pairs and percentage strings, with `"N/A"` for an empty
denominator. -/
def calculate_reputation_from_ratings (cards : List PyVal) :
    Except String RepStats :=
  match repCounts cards with
  | Except.error e => Except.error e
  | Except.ok (st, sp, bt, bp) =>
    Except.ok
      { positive_reviews_as_seller := toString sp ++ "/" ++ toString st
        positive_rate_as_seller :=
          if 0 < st then pyFormatF2 ((sp : ℚ) / (st : ℚ) * 100) ++ "%" else "N/A"
        positive_reviews_as_buyer := toString bp ++ "/" ++ toString bt
        positive_rate_as_buyer :=
          if 0 < bt then pyFormatF2 ((bp : ℚ) / (bt : ℚ) * 100) ++ "%" else "N/A" }

/-- A card whose extracted role tag is a string containing a seller
marker; the source checks this branch first, so such a card always counts
toward the seller tally. -/
def isSellerCard (card : PyVal) : Bool :=
  match repCardRole card with
  | PyVal.str s => pyInStr "卖家" s || pyInStr "Seller" s
  | _ => false

/-- A seller card whose rate value equals 1 (a positive review). -/
def isSellerPosCard (card : PyVal) : Bool :=
  isSellerCard card && pyEqOne (repCardRate card)

/-- A card counted toward the buyer tally: buyer marker present and (per
the source's `elif`) no seller marker. -/
def isBuyerCard (card : PyVal) : Bool :=
  match repCardRole card with
  | PyVal.str s =>
    !(pyInStr "卖家" s || pyInStr "Seller" s) &&
      (pyInStr "买家" s || pyInStr "Buyer" s)
  | _ => false

/-- A buyer card whose rate value equals 1. -/
def isBuyerPosCard (card : PyVal) : Bool :=
  isBuyerCard card && pyEqOne (repCardRate card)

/-- Python truthiness of a dynamic value, as used by `if link:` and
`if ai_analysis_result:`. -/
def pyTruthy : PyVal → Bool
  | PyVal.none => false
  | PyVal.bool b => b
  | PyVal.int n => n != 0
  | PyVal.str s => !(s == "")
  | PyVal.list xs => !xs.isEmpty
  | PyVal.dict kvs => !kvs.isEmpty

/-- Python `value.get(key, default)` on a dynamic value: a `dict` looks the
key up (missing key gives the default); any other shape raises
`AttributeError`, modelled as `Except.error`. -/
def pyDictGet (v : PyVal) (k : String) (dflt : PyVal) : Except String PyVal :=
  match v with
  | PyVal.dict kvs => Except.ok ((pyLookup kvs k).getD dflt)
  | _ => Except.error "AttributeError"

/-- The per-line body of the dedup-load loop of `scrape_xianyu`
(spider_v2.py lines 679-686): `json.loads` failure is caught and the line
skipped; a decoded record that is not a dict, an `item_info` value that is
not a dict, or a truthy non-string `item_link` raises an uncaught
`AttributeError` (only `json.JSONDecodeError` is caught there). -/
def lineKeysE (l : String) : Except String (List String) :=
  match pyJsonLoads l with
  | Option.none => Except.ok []
  | some record =>
    match pyDictGet record "item_info" (PyVal.dict []) with
    | Except.error e => Except.error e
    | Except.ok info =>
      match pyDictGet info "item_link" (PyVal.str "") with
      | Except.error e => Except.error e
      | Except.ok link =>
        if pyTruthy link then
          match link with
          | PyVal.str s => Except.ok [get_link_unique_key s]
          | _ => Except.error "AttributeError"
        else Except.ok []

/-- The dedup-load loop of `scrape_xianyu` (spider_v2.py lines 673-691)
over the history file's lines: keys of well-formed records accumulate into
the processed set; an uncaught per-line error aborts the whole load (and
the task). -/
def loadHistory : List String → Except String (List String)
  | [] => Except.ok []
  | l :: rest =>
    match lineKeysE l with
    | Except.error e => Except.error e
    | Except.ok ks =>
      match loadHistory rest with
      | Except.error e => Except.error e
      | Except.ok rs => Except.ok (ks ++ rs)

/-- Modelled from the spec: a history line is well formed when it either
fails JSON decoding (to be "tolerated, logged and skipped") or decodes to
a record object whose `item_info` (when present) is an object and whose
`item_link` (when present and truthy) is a string. -/
def lineWellFormed (l : String) : Bool :=
  match pyJsonLoads l with
  | Option.none => true
  | some record =>
    match record with
    | PyVal.dict kvs =>
      match (pyLookup kvs "item_info").getD (PyVal.dict []) with
      | PyVal.dict ikvs =>
        match (pyLookup ikvs "item_link").getD (PyVal.str "") with
        | PyVal.str _ => true
        | v => !pyTruthy v
      | _ => false
    | _ => false

/-- Modelled from the spec: the dedup keys one history line contributes —
none for an undecodable line or a missing/empty link, the canonical key of
`item_info.item_link` otherwise. -/
def lineKeys (l : String) : List String :=
  match pyJsonLoads l with
  | Option.none => []
  | some record =>
    match record with
    | PyVal.dict kvs =>
      match (pyLookup kvs "item_info").getD (PyVal.dict []) with
      | PyVal.dict ikvs =>
        match (pyLookup ikvs "item_link").getD (PyVal.str "") with
        | PyVal.str s => if pyTruthy (PyVal.str s) then [get_link_unique_key s] else []
        | _ => []
      | _ => []
    | _ => []

mutual

/-- Python's `repr`, as `str()` applies it to the elements of a list or
dict; string escaping subtleties are not modelled (quotes are plain
apostrophes). -/
def pyRepr : PyVal → String
  | PyVal.none => "None"
  | PyVal.bool b => if b then "True" else "False"
  | PyVal.int n => toString n
  | PyVal.str s => "\x27" ++ s ++ "\x27"
  | PyVal.list xs => "[" ++ String.intercalate ", " (pyReprList xs) ++ "]"
  | PyVal.dict kvs =>
    "\x7b" ++ String.intercalate ", " (pyReprDict kvs) ++ "\x7d"

/-- Element representations of a Python list. -/
def pyReprList : List PyVal → List String
  | [] => []
  | x :: xs => pyRepr x :: pyReprList xs

/-- Member representations of a Python dict. -/
def pyReprDict : List (String × PyVal) → List String
  | [] => []
  | (k, v) :: rest => ("\x27" ++ k ++ "\x27: " ++ pyRepr v) :: pyReprDict rest

end

/-- Python's `str()` on a dynamic value: a string prints itself, every
other shape prints as its `repr`. -/
def pyStrOf : PyVal → String
  | PyVal.str s => s
  | v => pyRepr v

/-- The block-signature test of `scrape_xianyu` (spider_v2.py lines
831-832): `"FAIL_SYS_USER_VALIDATE" in str(safe_get(detail_json, 'ret',
default=[]))`. -/
def blockSignal (detail_json : PyVal) : Bool :=
  pyInStr "FAIL_SYS_USER_VALIDATE"
    (pyStrOf (safe_get detail_json [PyKey.s "ret"] (PyVal.list [])))

/-- Model of `random.randint(lo, hi)` (bounds inclusive) applied to an
explicitly passed random draw `r`. -/
def pyRandint (lo hi : Nat) (r : Nat) : Nat := lo + r % (hi + 1 - lo)

/-- One attempt of the decorated `get_ai_analysis` body as seen by the
retry wrapper: `Option.none` for the response models a raised transport
error (`APIStatusError`/`HTTPError`); a returned text goes through the
response-parsing tail, whose decode failure is re-raised as
`json.JSONDecodeError` (spider_v2.py lines 652-655). -/
def aiAttempt (resp : Option String) : Except String PyVal :=
  match resp with
  | Option.none => Except.error "HTTPError"
  | some txt =>
    match get_ai_analysis_parse pyJsonLoads txt with
    | some v => Except.ok v
    | Option.none => Except.error "JSONDecodeError"

/-- The loop of the `retry_on_failure` decorator (spider_v2.py lines
413-443), with `i` the index of the next attempt and the second argument
the number of attempts still allowed: returns the first success (the
wrapper returns the wrapped function's value immediately), or
`Option.none` after the final failed attempt, together with the number of
attempts actually made and the list of fixed delays slept between
consecutive attempts. -/
def retryGo (attempts : Nat → Except String PyVal) (delay : Nat) (i : Nat) :
    Nat → Option PyVal × Nat × List Nat
  | 0 => (Option.none, 0, [])
  | rem + 1 =>
    match attempts i with
    | Except.ok v => (some v, 1, [])
    | Except.error _ =>
      if rem = 0 then (Option.none, 1, [])
      else
        match retryGo attempts delay (i + 1) rem with
        | (r, used, ds) => (r, used + 1, delay :: ds)

/-- The `retry_on_failure(retries, delay)` decorator applied to a fallible
call. -/
def retry_on_failure (retries delay : Nat)
    (attempts : Nat → Except String PyVal) : Option PyVal × Nat × List Nat :=
  retryGo attempts delay 0 retries

/-- `get_ai_analysis` as decorated in the source:
`@retry_on_failure(retries=5, delay=10)` (spider_v2.py line 581). -/
def get_ai_analysis (responses : Nat → Option String) :
    Option PyVal × Nat × List Nat :=
  retry_on_failure 5 10 (fun i => aiAttempt (responses i))

/-- The per-task configuration fields `scrape_xianyu` reads from
`task_config`. -/
structure TaskCfg where
  keyword : String
  task_name : String
  ai_prompt_text : String
  debug_limit : Nat

/-- One parsed search-result listing, as produced by
`_parse_search_results_json`; only the fields the orchestration loop
branches on are carried (the detail-phase enrichments of `item_data` never
touch `item_link`, source lines 851-859). -/
structure SearchItem where
  item_link : String
  item_id : String
  item_title : String

/-- The environment's answer to one item's detail fetch: a correlation
timeout (`PlaywrightTimeoutError`), a non-OK response status, or a JSON
payload. -/
inductive DetailOutcome where
  | timeout : DetailOutcome
  | notOk (status : Nat) : DetailOutcome
  | okJson (j : PyVal) : DetailOutcome

/-- The external world's answers consumed while processing one item: the
detail response, the AI model's per-attempt responses, the scraped seller
profile (an external interaction summarized as data), whether the history
append succeeds (`save_to_jsonl` returns `False` on `IOError`), and the
random draw behind the block cooldown. -/
structure ItemEnv where
  detail : DetailOutcome
  aiResponses : Nat → Option String
  sellerInfo : PyVal
  writeOk : Bool
  blockRand : Nat

/-- The unified record assembled at spider_v2.py lines 870-876; the
`crawl_time` timestamp is not modelled. -/
structure UnifiedRecord where
  search_keyword : String
  task_name : String
  item_info : SearchItem
  seller_info : PyVal
  ai_analysis : Option PyVal

/-- Observable events of a task run: a detail fetch for a dedup key, a
notification, an append of a record to the history file (with the write's
success flag), an insertion into the in-memory processed set, and the
block-cooldown sleep with its duration in seconds. -/
inductive Ev where
  | fetchDetail (key : String) : Ev
  | notify (key : String) : Ev
  | append (r : UnifiedRecord) (ok : Bool) : Ev
  | addKey (key : String) : Ev
  | blockSleep (dur : Nat) : Ev

/-- The mutable state of one `scrape_xianyu` run: the in-memory
`processed_links` set, `processed_item_count` (the function's return
value), the `stop_scraping` flag, and the event trace. -/
structure ScrapeState where
  processed : List String
  count : Nat
  stop : Bool
  trace : List Ev

/-- The `'error'` marker dict recorded when AI analysis yields nothing
(spider_v2.py line 890). -/
def aiErrorMarker : PyVal :=
  PyVal.dict [("error", PyVal.str "AI analysis returned None after retries.")]

/-- The record assembly plus persistence tail of one successful item
(spider_v2.py lines 870-905): optional notification, the `save_to_jsonl`
append attempt (its boolean result is ignored by the caller), insertion of
the dedup key into the processed set, and the counter increment. -/
def commitItem (cfg : TaskCfg) (item : SearchItem) (env : ItemEnv)
    (key : String) (st : ScrapeState) (aiField : Option PyVal)
    (recommended : Bool) : ScrapeState :=
  let r : UnifiedRecord :=
    { search_keyword := cfg.keyword, task_name := cfg.task_name,
      item_info := item, seller_info := env.sellerInfo,
      ai_analysis := aiField }
  { st with
    processed := key :: st.processed,
    count := st.count + 1,
    trace := st.trace ++ (if recommended then [Ev.notify key] else []) ++
      [Ev.append r env.writeOk, Ev.addKey key] }

/-- Processing of one listing inside the page loop of `scrape_xianyu`
(spider_v2.py lines 814-925): dedup membership test before any fetch;
detail fetch with timeout/non-OK outcomes abandoning the item; the
block-signature branch setting `stop_scraping` after the randomized
cooldown; otherwise AI analysis through the retry wrapper — a truthy
non-dict AI result makes the notification test raise `AttributeError`,
which the generic handler turns into abandoning the item — and finally
the commit tail. -/
def itemStep (cfg : TaskCfg) (item : SearchItem) (env : ItemEnv)
    (st : ScrapeState) : ScrapeState :=
  let key := get_link_unique_key item.item_link
  if key ∈ st.processed then st
  else
    let st1 := { st with trace := st.trace ++ [Ev.fetchDetail key] }
    match env.detail with
    | DetailOutcome.timeout => st1
    | DetailOutcome.notOk _ => st1
    | DetailOutcome.okJson j =>
      if blockSignal j then
        { st1 with
          stop := true,
          trace := st1.trace ++
            [Ev.blockSleep (pyRandint 300 600 env.blockRand)] }
      else
        match (if cfg.ai_prompt_text ≠ "" then
            (get_ai_analysis env.aiResponses).1 else Option.none) with
        | some v =>
          if pyTruthy v then
            match v with
            | PyVal.dict kvs =>
              commitItem cfg item env key st1 (some (PyVal.dict kvs))
                (pyTruthy ((pyLookup kvs "is_recommended").getD PyVal.none))
            | _ => st1
          else
            commitItem cfg item env key st1 (some aiErrorMarker) false
        | Option.none =>
          if cfg.ai_prompt_text ≠ "" then
            commitItem cfg item env key st1 (some aiErrorMarker) false
          else
            commitItem cfg item env key st1 Option.none false

/-- The inner item loop over one parsed page (spider_v2.py lines
808-925): the debug limit stops the whole task; a step that set
`stop_scraping` (the block signature) breaks out of the page. -/
def runItems (cfg : TaskCfg) :
    List (SearchItem × ItemEnv) → ScrapeState → ScrapeState
  | [], st => st
  | (item, env) :: rest, st =>
    if 0 < cfg.debug_limit ∧ cfg.debug_limit ≤ st.count then
      { st with stop := true }
    else
      let r := itemStep cfg item env st
      if r.stop then r else runItems cfg rest r

/-- The page loop of `scrape_xianyu` (spider_v2.py lines 782-929): stop
when `stop_scraping` is set; an empty parsed page ends the listing phase;
otherwise process the page's items in order and continue.  Pages are the
environment's parsed per-page listings (navigation failures simply
shorten this list). -/
def runPages (cfg : TaskCfg) :
    List (List (SearchItem × ItemEnv)) → ScrapeState → ScrapeState
  | [], st => st
  | pg :: rest, st =>
    if st.stop then st
    else if pg.isEmpty then st
    else runPages cfg rest (runItems cfg pg st)

/-- A full `scrape_xianyu` run after the dedup load: start with the keys
loaded from the history file, an empty trace and a zero counter; the
state's `count` is the function's return value. -/
def runScrape (cfg : TaskCfg) (pages : List (List (SearchItem × ItemEnv)))
    (initKeys : List String) : ScrapeState :=
  runPages cfg pages
    { processed := initKeys, count := 0, stop := false, trace := [] }

/-- Whether the trace contains a detail fetch for the given key. -/
def trHasFetch (k : String) (t : List Ev) : Bool :=
  t.any (fun e => match e with
    | Ev.fetchDetail k2 => k2 == k
    | _ => false)

/-- The dedup keys of all records appended (successfully or not) in the
trace. -/
def trAppendKeys (t : List Ev) : List String :=
  t.filterMap (fun e => match e with
    | Ev.append r _ => some (get_link_unique_key r.item_info.item_link)
    | _ => Option.none)

/-- The dedup keys of records whose append succeeded. -/
def trSuccAppendKeys (t : List Ev) : List String :=
  t.filterMap (fun e => match e with
    | Ev.append r true => some (get_link_unique_key r.item_info.item_link)
    | _ => Option.none)

/-- Scan of a trace checking that every key insertion is preceded by an
append of a record carrying that key; `seen` holds the keys appended so
far. -/
def checkAddKeys : List Ev → List String → Bool
  | [], _ => true
  | Ev.append r _ :: t, seen =>
    checkAddKeys t (get_link_unique_key r.item_info.item_link :: seen)
  | Ev.addKey k :: t, seen => seen.contains k && checkAddKeys t seen
  | _ :: t, seen => checkAddKeys t seen

end Spider

namespace Spider

theorem pySplit1_ne_nil (sep : Char) (cs : List Char) : pySplit1 sep cs ≠ [] := by
  cases cs with
  | nil => simp [pySplit1]
  | cons c cs =>
    simp only [pySplit1]
    by_cases h : c = sep
    · simp [h]
    · simp only [if_neg h]
      cases pySplit1 sep cs <;> simp

theorem pySplit1_head (sep : Char) (cs : List Char) :
    (pySplit1 sep cs).headD cs = cs.takeWhile (fun c => c ≠ sep) := by
  induction cs with
  | nil => simp [pySplit1]
  | cons c cs ih =>
    by_cases h : c = sep
    · simp [pySplit1, h, List.takeWhile]
    · simp only [pySplit1, if_neg h]
      cases hsplit : pySplit1 sep cs with
      | nil => exact absurd hsplit (pySplit1_ne_nil sep cs)
      | cons p rest =>
        simp only [List.headD]
        rw [hsplit] at ih
        simp only [List.headD] at ih
        simp only [List.takeWhile]
        rw [← ih]
        simp [h]

theorem safe_get_spec (data : PyVal) (keys : List PyKey) (default : PyVal) :
    safe_get data keys default =
      match pyGetPath data keys with
      | some v => v
      | Option.none => default := by
  induction keys generalizing data with
  | nil => simp [safe_get, pyGetPath]
  | cons k rest ih =>
    simp only [safe_get, pyGetPath]
    cases pyIndex data k with
    | none => rfl
    | some d => exact ih d

theorem takeWhile_append_all {α : Type} (q : α → Bool) (l1 : List α) (x : α)
    (l2 : List α) (h : ∀ c ∈ l1, q c = true) (hx : q x = false) :
    (l1 ++ x :: l2).takeWhile q = l1 := by
  induction l1 with
  | nil => simp [List.takeWhile, hx]
  | cons c cs ih =>
    have hc : q c = true := h c (by simp)
    simp only [List.cons_append, List.takeWhile, hc, List.append_eq]
    rw [ih (fun d hd => h d (by simp [hd]))]

/-- C2: the dedup key computed by `get_link_unique_key` is exactly the
portion of the link before the first `'&'` (the whole link when no `'&'`
occurs, since `takeWhile` then keeps everything), and any two links that
agree before their first `'&'` yield the same key, namely that common
prefix. -/
theorem c2_unique_key_before_first_amp :
    (∀ link : String,
        get_link_unique_key link =
          String.mk (link.data.takeWhile (fun c => c ≠ '&'))) ∧
    (∀ (p s : List Char), '&' ∉ p →
        get_link_unique_key (String.mk (p ++ '&' :: s)) = String.mk p) := by
  constructor
  · intro link
    unfold get_link_unique_key
    rw [pySplit1_head]
  · intro p s hp
    unfold get_link_unique_key
    rw [pySplit1_head]
    congr 1
    exact takeWhile_append_all _ p '&' s
      (fun c hc => by simp; rintro rfl; exact hp hc) (by simp)

/-- Closed instance of `c2_unique_key_before_first_amp`: two concrete links
that agree before their first `'&'` get the common key. -/
theorem c2_witness :
    get_link_unique_key "https://g.com/item?id=1&track=a" =
      get_link_unique_key "https://g.com/item?id=1&utm=b" := by
  have h1 := c2_unique_key_before_first_amp.2 "https://g.com/item?id=1".data
    "track=a".data (by decide)
  have h2 := c2_unique_key_before_first_amp.2 "https://g.com/item?id=1".data
    "utm=b".data (by decide)
  exact h1.trans h2.symm

/-- C10: `safe_get` is total by construction; it returns the nested value
when every subscription step succeeds, and the supplied default as soon as
one step fails (`pyIndex` returning `Option.none` models the caught
`KeyError`/`TypeError`/`IndexError`); with no default supplied the result
of a failing path is the string `"Not available"`. -/
theorem c10_safe_get_total (data : PyVal) (keys : List PyKey) (default : PyVal) :
    (∀ v, pyGetPath data keys = some v → safe_get data keys default = v) ∧
    (pyGetPath data keys = Option.none → safe_get data keys default = default) ∧
    (pyGetPath data keys = Option.none →
      safe_get data keys = PyVal.str "Not available") := by
  refine ⟨fun v hv => ?_, fun h => ?_, fun h => ?_⟩
  · rw [safe_get_spec, hv]
  · rw [safe_get_spec, h]
  · rw [safe_get_spec, h]

theorem findIdxAux_append_none (p : Char → Bool) (l1 l2 : List Char)
    (h : ∀ c ∈ l1, p c = false) :
    findIdxAux p (l1 ++ l2) = (findIdxAux p l2).map (· + l1.length) := by
  induction l1 with
  | nil =>
    simp only [List.nil_append, List.length_nil]
    cases findIdxAux p l2 <;> simp
  | cons c cs ih =>
    have hc : p c = false := h c (by simp)
    simp only [List.cons_append, findIdxAux, hc, Bool.false_eq_true, if_false,
      List.append_eq]
    rw [ih (fun d hd => h d (by simp [hd]))]
    cases findIdxAux p l2 with
    | none => simp
    | some a => simp; omega

/-- C4 (amended): the parser takes the span from the first `'{'` to the
last `'}'` of the response text and JSON-decodes that span; for a response
consisting of a single balanced object with brace-free prose around it
this decodes exactly the inner object, and when no `'{'` or no `'}'` is
found the parser falls back to decoding the entire response text (which
fails exactly when that text is not itself valid JSON). -/
theorem c4_extract_first_to_last_brace :
    (∀ pre mid post : List Char, '{' ∉ pre → '}' ∉ post →
        get_ai_analysis_parse pyJsonLoads
            (String.mk (pre ++ ('{' :: (mid ++ ['}'])) ++ post)) =
          pyJsonLoads (String.mk ('{' :: (mid ++ ['}'])))) ∧
    (∀ content : String, pyFind content '{' = Option.none →
        get_ai_analysis_parse pyJsonLoads content = pyJsonLoads content) ∧
    (∀ content : String, pyRfind content '}' = Option.none →
        get_ai_analysis_parse pyJsonLoads content = pyJsonLoads content) := by
  refine ⟨?_, ?_, ?_⟩
  · intro pre mid post hpre hpost
    have hfind :
        pyFind (String.mk (pre ++ ('{' :: (mid ++ ['}'])) ++ post)) '{' =
          some pre.length := by
      show findIdxAux (fun x => x = '{') (pre ++ ('{' :: (mid ++ ['}'])) ++ post) =
        some pre.length
      rw [List.append_assoc,
        findIdxAux_append_none _ pre _
          (fun c hc => by simp only [decide_eq_false_iff_not]; rintro rfl; exact hpre hc)]
      simp [findIdxAux]
    have hrevfind :
        findIdxAux (fun x => x = '}')
            ((pre ++ ('{' :: (mid ++ ['}'])) ++ post).reverse) =
          some post.length := by
      have h1 : (pre ++ ('{' :: (mid ++ ['}'])) ++ post).reverse =
          post.reverse ++ ('}' :: (mid.reverse ++ ('{' :: pre.reverse))) := by
        simp only [List.reverse_append, List.reverse_cons, List.append_assoc,
          List.singleton_append, List.cons_append, List.nil_append]
      rw [h1,
        findIdxAux_append_none _ post.reverse _
          (fun c hc => by
            simp only [decide_eq_false_iff_not]
            rintro rfl
            exact hpost (List.mem_reverse.mp hc))]
      simp [findIdxAux]
    have hrfind :
        pyRfind (String.mk (pre ++ ('{' :: (mid ++ ['}'])) ++ post)) '}' =
          some (pre.length + mid.length + 1) := by
      show (findIdxAux (fun x => x = '}')
          ((pre ++ ('{' :: (mid ++ ['}'])) ++ post).reverse)).map
          (fun i => (pre ++ ('{' :: (mid ++ ['}'])) ++ post).length - 1 - i) =
        some (pre.length + mid.length + 1)
      rw [hrevfind]
      simp only [Option.map_some']
      congr 1
      simp only [List.length_append, List.length_cons, List.length_nil]
      omega
    have hslice :
        pySlice (String.mk (pre ++ ('{' :: (mid ++ ['}'])) ++ post)) pre.length
            (pre.length + mid.length + 1 + 1) =
          String.mk ('{' :: (mid ++ ['}'])) := by
      show String.mk
          (((pre ++ ('{' :: (mid ++ ['}'])) ++ post).drop pre.length).take
            (pre.length + mid.length + 1 + 1 - pre.length)) =
        String.mk ('{' :: (mid ++ ['}']))
      congr 1
      rw [List.append_assoc, List.drop_left]
      have hlen : pre.length + mid.length + 1 + 1 - pre.length =
          ('{' :: (mid ++ ['}'])).length := by
        simp only [List.length_cons, List.length_append, List.length_nil]
        omega
      rw [hlen, List.take_left]
    rw [get_ai_analysis_parse, hfind, hrfind]
    exact congrArg pyJsonLoads hslice
  · intro content h
    rw [get_ai_analysis_parse, h]
  · intro content h
    rw [get_ai_analysis_parse, h]
    cases pyFind content '{' <;> rfl

/-- C4 counterexample to the frozen claim: the response text `"123"`
contains no `'{'`, yet the parse does not fail — the fallback decodes the
whole text as the JSON number `123`. -/
theorem c4_counterexample :
    pyFind "123" '{' = Option.none ∧
    get_ai_analysis_parse pyJsonLoads "123" = some (PyVal.int 123) :=
  ⟨rfl, rfl⟩

/-- Closed instance of `c4_extract_first_to_last_brace`: prose around one
balanced object decodes to exactly the inner object. -/
theorem c4_witness :
    get_ai_analysis_parse pyJsonLoads
        (String.mk ("AI says: ".data ++ ('{' :: ("\"ok\": 1".data ++ ['}'])) ++
          " end".data)) =
      pyJsonLoads (String.mk ('{' :: ("\"ok\": 1".data ++ ['}']))) :=
  c4_extract_first_to_last_brace.1 "AI says: ".data "\"ok\": 1".data " end".data
    (by decide) (by decide)

theorem repCountsAux_spec (cards : List PyVal) (acc : Nat × Nat × Nat × Nat)
    (h : ∀ c ∈ cards, ∃ s, repCardRole c = PyVal.str s) :
    repCountsAux acc cards = Except.ok
      (acc.1 + cards.countP (fun c => isSellerCard c),
       acc.2.1 + cards.countP (fun c => isSellerPosCard c),
       acc.2.2.1 + cards.countP (fun c => isBuyerCard c),
       acc.2.2.2 + cards.countP (fun c => isBuyerPosCard c)) := by
  induction cards generalizing acc with
  | nil => simp [repCountsAux]
  | cons c cs ih =>
    obtain ⟨s, hs⟩ := h c (by simp)
    have hrest : ∀ d ∈ cs, ∃ t, repCardRole d = PyVal.str t :=
      fun d hd => h d (by simp [hd])
    simp only [repCountsAux, repStep, hs]
    by_cases hsell : (pyInStr "卖家" s || pyInStr "Seller" s) = true
    · simp only [hsell, if_true]
      rw [ih _ hrest]
      have h1 : isSellerCard c = true := by simp [isSellerCard, hs, hsell]
      have h2 : isBuyerCard c = false := by simp [isBuyerCard, hs, hsell]
      by_cases hpos : pyEqOne (repCardRate c) = true
      · simp [List.countP_cons, isSellerPosCard, isBuyerPosCard, h1, h2, hpos]
        omega
      · simp [List.countP_cons, isSellerPosCard, isBuyerPosCard, h1, h2, hpos]
        omega
    · simp only [hsell, if_false, Bool.false_eq_true]
      by_cases hbuy : (pyInStr "买家" s || pyInStr "Buyer" s) = true
      · simp only [hbuy, if_true]
        rw [ih _ hrest]
        have h1 : isSellerCard c = false := by simp [isSellerCard, hs, hsell]
        have h2 : isBuyerCard c = true := by
          simp [isBuyerCard, hs, hbuy]
          simp at hsell
          simp [hsell]
        by_cases hpos : pyEqOne (repCardRate c) = true
        · simp [List.countP_cons, isSellerPosCard, isBuyerPosCard, h1, h2, hpos]
          omega
        · simp [List.countP_cons, isSellerPosCard, isBuyerPosCard, h1, h2, hpos]
          omega
      · simp only [hbuy, if_false, Bool.false_eq_true]
        rw [ih _ hrest]
        have h1 : isSellerCard c = false := by simp [isSellerCard, hs, hsell]
        have h2 : isBuyerCard c = false := by simp [isBuyerCard, hs, hbuy]
        simp [List.countP_cons, isSellerPosCard, isBuyerPosCard, h1, h2]

/-- C6: for rating cards whose extracted role tag is a string (the shape
the rating API returns), aggregation succeeds, counts exactly the cards
with a seller marker as the seller denominator N and those of them with
rate value 1 as the numerator S, and renders `positive_rate_as_seller` as
`S/N·100` formatted with two decimal places — or the string `"N/A"` when N
is zero. -/
theorem c6_seller_positive_rate (cards : List PyVal)
    (h : ∀ c ∈ cards, ∃ s, repCardRole c = PyVal.str s) :
    ∃ stats, calculate_reputation_from_ratings cards = Except.ok stats ∧
      stats.positive_reviews_as_seller =
        toString (cards.countP (fun c => isSellerPosCard c)) ++ "/" ++
          toString (cards.countP (fun c => isSellerCard c)) ∧
      stats.positive_rate_as_seller =
        (if 0 < cards.countP (fun c => isSellerCard c) then
          pyFormatF2 ((cards.countP (fun c => isSellerPosCard c) : ℚ) /
            (cards.countP (fun c => isSellerCard c) : ℚ) * 100) ++ "%"
        else "N/A") := by
  have hc := repCountsAux_spec cards (0, 0, 0, 0) h
  unfold calculate_reputation_from_ratings repCounts
  rw [hc]
  simp only [Nat.zero_add]
  exact ⟨_, rfl, rfl, rfl⟩

/-- Closed instance of `c6_seller_positive_rate`: a buyer-only card list
has no seller ratings, so the seller positive rate is `"N/A"`. -/
theorem c6_witness :
    ∃ stats,
      calculate_reputation_from_ratings
          [PyVal.dict [("cardData", PyVal.dict
              [("rateTagList", PyVal.list [PyVal.dict [("text", PyVal.str "买家")]]),
               ("rate", PyVal.int 1)])],
           PyVal.dict []] = Except.ok stats ∧
      stats.positive_rate_as_seller = "N/A" := by
  obtain ⟨stats, hok, _, hrate⟩ := c6_seller_positive_rate
    [PyVal.dict [("cardData", PyVal.dict
        [("rateTagList", PyVal.list [PyVal.dict [("text", PyVal.str "买家")]]),
         ("rate", PyVal.int 1)])],
     PyVal.dict []]
    (by
      intro c hc
      simp only [List.mem_cons, List.not_mem_nil, or_false] at hc
      rcases hc with rfl | rfl
      · exact ⟨"买家", rfl⟩
      · exact ⟨"", rfl⟩)
  exact ⟨stats, hok, by rw [hrate]; rfl⟩

theorem lineWellFormed_ok (l : String) (h : lineWellFormed l = true) :
    lineKeysE l = Except.ok (lineKeys l) := by
  unfold lineWellFormed at h
  unfold lineKeysE lineKeys pyDictGet
  cases hp : pyJsonLoads l with
  | none => rfl
  | some record =>
    rw [hp] at h
    dsimp only at h ⊢
    cases record with
    | dict kvs =>
      dsimp only at h ⊢
      cases hinfo : (pyLookup kvs "item_info").getD (PyVal.dict []) with
      | dict ikvs =>
        dsimp only at h ⊢
        cases hlink : (pyLookup ikvs "item_link").getD (PyVal.str "") with
        | str s =>
          dsimp only at h ⊢
          by_cases ht : pyTruthy (PyVal.str s) = true
          · simp [ht]
          · simp [ht]
        | none => simp [pyTruthy]
        | bool b => simp_all [pyTruthy]
        | int n => simp_all [pyTruthy]
        | list xs => simp_all [pyTruthy]
        | dict d => simp_all [pyTruthy]
      | none => simp_all
      | bool b => simp_all
      | int n => simp_all
      | str s => simp_all
      | list xs => simp_all
    | none => simp at h
    | bool b => simp at h
    | int n => simp at h
    | str s => simp at h
    | list xs => simp at h

/-- C8 (amended): the dedup load tolerates and skips lines that fail JSON
decoding, and for every history file whose decodable lines are record
objects (with object-shaped `item_info` and string or falsy `item_link`)
it completes, adding each record's dedup key — but a decodable line that
is not such an object raises an uncaught `AttributeError` that aborts the
load and the task (see `c8_counterexample`). -/
theorem c8_load_skips_undecodable_lines (lines : List String)
    (h : ∀ l ∈ lines, lineWellFormed l = true) :
    loadHistory lines = Except.ok ((lines.map lineKeys).flatten) := by
  induction lines with
  | nil => rfl
  | cons l rest ih =>
    have hl := lineWellFormed_ok l (h l (by simp))
    simp only [loadHistory, hl, List.map_cons, List.flatten_cons]
    rw [ih (fun d hd => h d (by simp [hd]))]

/-- C8 counterexample to the frozen claim: a history line holding the
valid JSON value `123` — not an object — is not skipped; `record.get`
raises an uncaught `AttributeError` and the load aborts. -/
theorem c8_counterexample :
    loadHistory ["123"] = Except.error "AttributeError" := rfl

/-- Closed instance of `c8_load_skips_undecodable_lines`: one well-formed
record line plus one undecodable line load to exactly the record's key. -/
theorem c8_witness :
    loadHistory
        ["\x7b\"item_info\": \x7b\"item_link\": \"L&x\"\x7d\x7d", "not json"] =
      Except.ok ["L"] := by
  have h := c8_load_skips_undecodable_lines
    ["\x7b\"item_info\": \x7b\"item_link\": \"L&x\"\x7d\x7d", "not json"]
    (by
      intro l hl
      simp only [List.mem_cons, List.not_mem_nil, or_false] at hl
      rcases hl with rfl | rfl <;> rfl)
  rw [h]
  rfl

theorem rat_floor_eq_intFloor (q : ℚ) : q.floor = ⌊q⌋ := rfl

theorem pyRound_zero : pyRound 0 = 0 := by
  unfold pyRound
  rw [rat_floor_eq_intFloor]
  norm_num

/-- C9: registration-duration formatting — non-integer or non-positive day
counts give `"Unknown"`; 400 days gives the years-and-months phrase for 1
year and 1 month under 365.25-day years; and every positive day count that
365.25 divides exactly (`n = 1461·k`, the only integers with zero
remaining days) gives the years-only phrase with `4·k` years. -/
theorem c9_registration_duration :
    (∀ v : PyVal, (∀ n : Int, pyAsInt v = some n → n ≤ 0) →
        format_registration_days v = "Unknown") ∧
    format_registration_days (PyVal.int 400) =
      "On Xianyu for 1 years and 1 months" ∧
    (∀ k : Int, 0 < k →
        format_registration_days (PyVal.int (1461 * k)) =
          "On Xianyu for " ++ toString (4 * k) ++ " years") := by
  refine ⟨?_, ?_, ?_⟩
  · intro v h
    cases v with
    | int n =>
      have hn := h n rfl
      simp [format_registration_days, pyAsInt, hn]
    | bool b =>
      cases b with
      | false => simp [format_registration_days, pyAsInt]
      | true =>
        have h1 := h 1 (by simp [pyAsInt])
        norm_num at h1
    | none => rfl
    | str s => rfl
    | list xs => rfl
    | dict kvs => rfl
  · have hq : ((400 : Int) : ℚ) / daysInYear = 1600 / 1461 := by
      unfold daysInYear
      norm_num
    have hY : regYears 400 = 1 := by
      unfold regYears
      rw [hq, rat_floor_eq_intFloor, Int.floor_eq_iff]
      norm_num
    have hrem : regRemaining 400 = 139 / 4 := by
      unfold regRemaining daysInYear
      rw [hY]
      norm_num
    have hM : regMonthsRaw 400 = 1 := by
      unfold regMonthsRaw daysInMonth daysInYear
      rw [hrem]
      have hdiv : (139 / 4 : ℚ) / (1461 / 4 / 12) = 1668 / 1461 := by norm_num
      rw [hdiv]
      unfold pyRound
      rw [rat_floor_eq_intFloor]
      have hfl : ⌊(1668 / 1461 : ℚ)⌋ = 1 := by
        rw [Int.floor_eq_iff]
        norm_num
      rw [hfl]
      norm_num
    simp only [format_registration_days, pyAsInt]
    rw [if_neg (by norm_num : ¬(400 : ℤ) ≤ 0)]
    simp only [regYearsFinal, regMonthsFinal, hM, hY]
    norm_num
    rfl
  · intro k hk
    have hq : ((1461 * k : Int) : ℚ) / daysInYear = ((4 * k : Int) : ℚ) := by
      unfold daysInYear
      push_cast
      field_simp
      ring
    have hY : regYears (1461 * k) = 4 * k := by
      unfold regYears
      rw [hq, rat_floor_eq_intFloor, Int.floor_intCast]
    have hrem : regRemaining (1461 * k) = 0 := by
      unfold regRemaining daysInYear
      rw [hY]
      push_cast
      ring
    have hM : regMonthsRaw (1461 * k) = 0 := by
      unfold regMonthsRaw
      rw [hrem, zero_div, pyRound_zero]
    have hpos : (0 : ℤ) < 1461 * k := by positivity
    have hpos4 : (0 : ℤ) < 4 * k := by positivity
    simp only [format_registration_days, pyAsInt]
    rw [if_neg (by omega : ¬(1461 * k ≤ 0))]
    simp only [regYearsFinal, regMonthsFinal, hM, hY]
    norm_num [hpos4]

/-- Closed instance of `c9_registration_duration`: a negative day count, a
non-integer day count, and an exact four-year multiple. -/
theorem c9_witness :
    format_registration_days (PyVal.int (-3)) = "Unknown" ∧
    format_registration_days (PyVal.str "n/a") = "Unknown" ∧
    format_registration_days (PyVal.int 1461) =
      "On Xianyu for " ++ toString (4 : Int) ++ " years" := by
  refine ⟨?_, ?_, ?_⟩
  · exact c9_registration_duration.1 (PyVal.int (-3))
      (fun n hn => by cases hn; norm_num)
  · exact c9_registration_duration.1 (PyVal.str "n/a") (fun n hn => by cases hn)
  · have h := c9_registration_duration.2.2 1 (by norm_num)
    norm_num at h
    exact h

/-- Closed instance of `c10_safe_get_total`: a successful two-step path and
a failing path falling back to `"Not available"`. -/
theorem c10_witness :
    safe_get (PyVal.dict [("a", PyVal.list [PyVal.int 7])])
      [PyKey.s "a", PyKey.i 0] (PyVal.str "d") = PyVal.int 7 ∧
    safe_get (PyVal.dict [("a", PyVal.int 1)]) [PyKey.s "a", PyKey.s "b"] =
      PyVal.str "Not available" := by
  constructor
  · exact (c10_safe_get_total (PyVal.dict [("a", PyVal.list [PyVal.int 7])])
      [PyKey.s "a", PyKey.i 0] (PyVal.str "d")).1 (PyVal.int 7) (by rfl)
  · exact (c10_safe_get_total (PyVal.dict [("a", PyVal.int 1)])
      [PyKey.s "a", PyKey.s "b"] (PyVal.str "Not available")).2.2 (by rfl)

theorem trHasFetch_append (k : String) (t1 t2 : List Ev) :
    trHasFetch k (t1 ++ t2) = (trHasFetch k t1 || trHasFetch k t2) :=
  List.any_append

theorem trAppendKeys_append (t1 t2 : List Ev) :
    trAppendKeys (t1 ++ t2) = trAppendKeys t1 ++ trAppendKeys t2 :=
  List.filterMap_append t1 t2 _

theorem itemStep_spec (cfg : TaskCfg) (item : SearchItem) (env : ItemEnv)
    (st : ScrapeState) :
    (get_link_unique_key item.item_link ∈ st.processed ∧
      itemStep cfg item env st = st) ∨
    (get_link_unique_key item.item_link ∉ st.processed ∧
      (itemStep cfg item env st =
          { st with trace := st.trace ++
              [Ev.fetchDetail (get_link_unique_key item.item_link)] } ∨
       (∃ d, itemStep cfg item env st =
          { st with
            stop := true,
            trace := st.trace ++
              [Ev.fetchDetail (get_link_unique_key item.item_link),
               Ev.blockSleep d] }) ∨
       (∃ (aiField : Option PyVal) (recommended : Bool),
          itemStep cfg item env st =
            { st with
              processed := get_link_unique_key item.item_link :: st.processed,
              count := st.count + 1,
              trace := st.trace ++
                [Ev.fetchDetail (get_link_unique_key item.item_link)] ++
                (if recommended then
                  [Ev.notify (get_link_unique_key item.item_link)] else []) ++
                [Ev.append
                  { search_keyword := cfg.keyword, task_name := cfg.task_name,
                    item_info := item, seller_info := env.sellerInfo,
                    ai_analysis := aiField } env.writeOk,
                 Ev.addKey (get_link_unique_key item.item_link)] }))) := by
  unfold itemStep commitItem
  by_cases hmem : get_link_unique_key item.item_link ∈ st.processed
  · left
    exact ⟨hmem, by simp [hmem]⟩
  · right
    refine ⟨hmem, ?_⟩
    simp only [if_neg hmem]
    cases env.detail with
    | timeout => left; rfl
    | notOk status => left; rfl
    | okJson j =>
      by_cases hblock : blockSignal j = true
      · right; left
        refine ⟨pyRandint 300 600 env.blockRand, ?_⟩
        simp [hblock, List.append_assoc]
      · simp only [hblock, Bool.false_eq_true, if_false]
        cases hai : (if cfg.ai_prompt_text ≠ "" then
            (get_ai_analysis env.aiResponses).1 else Option.none) with
        | some v =>
          by_cases htr : pyTruthy v = true
          · cases v with
            | dict kvs =>
              right; right
              refine ⟨some (PyVal.dict kvs),
                pyTruthy ((pyLookup kvs "is_recommended").getD PyVal.none), ?_⟩
              simp [htr, List.append_assoc]
            | none => left; simp [htr]
            | bool b => left; simp [htr]
            | int n => left; simp [htr]
            | str s => left; simp [htr]
            | list xs => left; simp [htr]
          · right; right
            refine ⟨some aiErrorMarker, false, ?_⟩
            simp [htr, List.append_assoc]
        | none =>
          by_cases hp : cfg.ai_prompt_text = ""
          · right; right
            refine ⟨Option.none, false, ?_⟩
            simp [hp, List.append_assoc]
          · right; right
            refine ⟨some aiErrorMarker, false, ?_⟩
            simp [hp, List.append_assoc]

theorem trHasFetch_small (K key : String) (r : UnifiedRecord) (wk b : Bool)
    (d : Nat) (h : (key == K) = false) :
    trHasFetch K [Ev.fetchDetail key] = false ∧
    trHasFetch K [Ev.fetchDetail key, Ev.blockSleep d] = false ∧
    trHasFetch K ([Ev.fetchDetail key] ++
      ((if b then [Ev.notify key] else []) ++
        [Ev.append r wk, Ev.addKey key])) = false := by
  cases b <;> simp [trHasFetch, h]

theorem trAppendKeys_small (key : String) (r : UnifiedRecord) (wk b : Bool)
    (d : Nat) :
    trAppendKeys [Ev.fetchDetail key] = [] ∧
    trAppendKeys [Ev.fetchDetail key, Ev.blockSleep d] = [] ∧
    trAppendKeys ([Ev.fetchDetail key] ++
      ((if b then [Ev.notify key] else []) ++
        [Ev.append r wk, Ev.addKey key])) =
      [get_link_unique_key r.item_info.item_link] := by
  cases b <;> simp [trAppendKeys]

theorem itemStep_keyInv (K : String) (cfg : TaskCfg) (item : SearchItem)
    (env : ItemEnv) (st : ScrapeState)
    (h : K ∈ st.processed ∧ trHasFetch K st.trace = false ∧
      K ∉ trAppendKeys st.trace) :
    K ∈ (itemStep cfg item env st).processed ∧
    trHasFetch K (itemStep cfg item env st).trace = false ∧
    K ∉ trAppendKeys (itemStep cfg item env st).trace := by
  obtain ⟨h1, h2, h3⟩ := h
  rcases itemStep_spec cfg item env st with ⟨hmem, heq⟩ | ⟨hmem, hcase⟩
  · rw [heq]; exact ⟨h1, h2, h3⟩
  · have hkK : (get_link_unique_key item.item_link == K) = false := by
      simp only [beq_eq_false_iff_ne]
      intro he
      exact hmem (he ▸ h1)
    rcases hcase with heq | ⟨d, heq⟩ | ⟨aiField, recommended, heq⟩
    · rw [heq]
      refine ⟨h1, ?_, ?_⟩
      · show trHasFetch K (st.trace ++ _) = false
        rw [trHasFetch_append, h2,
          (trHasFetch_small K _ ⟨"", "", item, PyVal.none, Option.none⟩
            true true 0 hkK).1]
        rfl
      · show K ∉ trAppendKeys (st.trace ++ _)
        rw [trAppendKeys_append,
          (trAppendKeys_small _ ⟨"", "", item, PyVal.none, Option.none⟩
            true true 0).1]
        simpa using h3
    · rw [heq]
      refine ⟨h1, ?_, ?_⟩
      · show trHasFetch K (st.trace ++ _) = false
        rw [trHasFetch_append, h2,
          (trHasFetch_small K _ ⟨"", "", item, PyVal.none, Option.none⟩
            true true d hkK).2.1]
        rfl
      · show K ∉ trAppendKeys (st.trace ++ _)
        rw [trAppendKeys_append,
          (trAppendKeys_small _ ⟨"", "", item, PyVal.none, Option.none⟩
            true true d).2.1]
        simpa using h3
    · rw [heq]
      refine ⟨by simp [h1], ?_, ?_⟩
      · show trHasFetch K (st.trace ++ _ ++ _ ++ _) = false
        simp only [List.append_assoc]
        rw [trHasFetch_append, h2,
          (trHasFetch_small K _
            ⟨cfg.keyword, cfg.task_name, item, env.sellerInfo, aiField⟩
            env.writeOk recommended 0 hkK).2.2]
        rfl
      · show K ∉ trAppendKeys (st.trace ++ _ ++ _ ++ _)
        simp only [List.append_assoc]
        rw [trAppendKeys_append,
          (trAppendKeys_small _
            ⟨cfg.keyword, cfg.task_name, item, env.sellerInfo, aiField⟩
            env.writeOk recommended 0).2.2]
        intro hmem2
        rcases List.mem_append.mp hmem2 with hh | hh
        · exact h3 hh
        · simp at hh
          simp only [beq_eq_false_iff_ne] at hkK
          exact hkK hh.symm

theorem runItems_keyInv (K : String) (cfg : TaskCfg)
    (items : List (SearchItem × ItemEnv)) (st : ScrapeState)
    (h : K ∈ st.processed ∧ trHasFetch K st.trace = false ∧
      K ∉ trAppendKeys st.trace) :
    K ∈ (runItems cfg items st).processed ∧
    trHasFetch K (runItems cfg items st).trace = false ∧
    K ∉ trAppendKeys (runItems cfg items st).trace := by
  induction items generalizing st with
  | nil => exact h
  | cons p rest ih =>
    obtain ⟨item, env⟩ := p
    simp only [runItems]
    by_cases hd : 0 < cfg.debug_limit ∧ cfg.debug_limit ≤ st.count
    · simp only [if_pos hd]
      exact h
    · simp only [if_neg hd]
      have hstep := itemStep_keyInv K cfg item env st h
      by_cases hs : (itemStep cfg item env st).stop = true
      · simp only [hs, if_true]
        exact hstep
      · simp only [hs, if_false, Bool.false_eq_true]
        exact ih _ hstep

theorem runPages_keyInv (K : String) (cfg : TaskCfg)
    (pages : List (List (SearchItem × ItemEnv))) (st : ScrapeState)
    (h : K ∈ st.processed ∧ trHasFetch K st.trace = false ∧
      K ∉ trAppendKeys st.trace) :
    K ∈ (runPages cfg pages st).processed ∧
    trHasFetch K (runPages cfg pages st).trace = false ∧
    K ∉ trAppendKeys (runPages cfg pages st).trace := by
  induction pages generalizing st with
  | nil => exact h
  | cons pg rest ih =>
    simp only [runPages]
    by_cases hs : st.stop = true
    · simp only [hs, if_true]
      exact h
    · simp only [hs, if_false, Bool.false_eq_true]
      by_cases he : pg.isEmpty = true
      · simp only [he, if_true]
        exact h
      · simp only [he, if_false, Bool.false_eq_true]
        exact ih _ (runItems_keyInv K cfg pg st h)

/-- C1: for every dedup key `K` committed to the task's history file and
loaded at task start, a run of the task — over any pages of listings and
any environment behavior — never performs a detail fetch for `K` and never
appends another record whose canonical link key is `K`: the membership
test fires before the fetch, and the in-memory set only grows. -/
theorem c1_persisted_keys_never_refetched (cfg : TaskCfg)
    (lines : List String) (initKeys : List String) (K : String)
    (pages : List (List (SearchItem × ItemEnv)))
    (_hload : loadHistory lines = Except.ok initKeys) (hK : K ∈ initKeys) :
    trHasFetch K (runScrape cfg pages initKeys).trace = false ∧
    K ∉ trAppendKeys (runScrape cfg pages initKeys).trace := by
  have h := runPages_keyInv K cfg pages
    { processed := initKeys, count := 0, stop := false, trace := [] }
    ⟨hK, rfl, by simp [trAppendKeys]⟩
  exact ⟨h.2.1, h.2.2⟩

/-- Closed instance of `c1_persisted_keys_never_refetched`: a history file
whose one record normalizes to key `"L"`; a later run seeing a listing for
the same item with different tracking parameters fetches nothing and
appends nothing. -/
theorem c1_witness :
    trHasFetch "L" (runScrape ⟨"kw", "tn", "", 0⟩
        [[(⟨"L&utm=2", "id1", "t1"⟩,
           ⟨DetailOutcome.okJson (PyVal.dict []), fun _ => Option.none,
            PyVal.dict [], true, 0⟩)]]
        ["L"]).trace = false ∧
    "L" ∉ trAppendKeys (runScrape ⟨"kw", "tn", "", 0⟩
        [[(⟨"L&utm=2", "id1", "t1"⟩,
           ⟨DetailOutcome.okJson (PyVal.dict []), fun _ => Option.none,
            PyVal.dict [], true, 0⟩)]]
        ["L"]).trace :=
  c1_persisted_keys_never_refetched ⟨"kw", "tn", "", 0⟩
    ["\x7b\"item_info\": \x7b\"item_link\": \"L&x\"\x7d\x7d"] ["L"] "L"
    [[(⟨"L&utm=2", "id1", "t1"⟩,
       ⟨DetailOutcome.okJson (PyVal.dict []), fun _ => Option.none,
        PyVal.dict [], true, 0⟩)]]
    rfl (by simp)

theorem trAppendKeys_cons (e : Ev) (t : List Ev) :
    trAppendKeys (e :: t) =
      (match e with
       | Ev.append r _ =>
         get_link_unique_key r.item_info.item_link :: trAppendKeys t
       | _ => trAppendKeys t) := by
  cases e <;> simp [trAppendKeys]

theorem checkAddKeys_append (t1 t2 : List Ev) (seen : List String) :
    checkAddKeys (t1 ++ t2) seen =
      (checkAddKeys t1 seen &&
        checkAddKeys t2 ((trAppendKeys t1).reverse ++ seen)) := by
  induction t1 generalizing seen with
  | nil => simp [checkAddKeys, trAppendKeys]
  | cons e t ih =>
    cases e with
    | fetchDetail k =>
      simp only [List.cons_append, checkAddKeys, List.append_eq, ih,
        trAppendKeys_cons]
    | notify k =>
      simp only [List.cons_append, checkAddKeys, List.append_eq, ih,
        trAppendKeys_cons]
    | blockSleep d =>
      simp only [List.cons_append, checkAddKeys, List.append_eq, ih,
        trAppendKeys_cons, Bool.and_assoc]
    | addKey k =>
      simp only [List.cons_append, checkAddKeys, List.append_eq, ih,
        trAppendKeys_cons, Bool.and_assoc]
    | append r ok =>
      simp only [List.cons_append, checkAddKeys, List.append_eq, ih,
        trAppendKeys_cons, List.reverse_cons, List.append_assoc,
        List.singleton_append, List.nil_append]

theorem itemStep_commitInv (init : List String) (cfg : TaskCfg)
    (item : SearchItem) (env : ItemEnv) (st : ScrapeState)
    (h1 : checkAddKeys st.trace [] = true)
    (h2 : ∀ K, K ∈ st.processed → K ∈ init ∨ K ∈ trAppendKeys st.trace) :
    checkAddKeys (itemStep cfg item env st).trace [] = true ∧
    ∀ K, K ∈ (itemStep cfg item env st).processed →
      K ∈ init ∨ K ∈ trAppendKeys (itemStep cfg item env st).trace := by
  rcases itemStep_spec cfg item env st with ⟨hmem, heq⟩ | ⟨hmem, hcase⟩
  · rw [heq]; exact ⟨h1, h2⟩
  · rcases hcase with heq | ⟨d, heq⟩ | ⟨aiField, recommended, heq⟩
    · rw [heq]
      constructor
      · show checkAddKeys (st.trace ++ _) [] = true
        rw [checkAddKeys_append, h1]
        simp [checkAddKeys]
      · intro K hK
        rcases h2 K hK with hi | ht
        · exact Or.inl hi
        · exact Or.inr (by
            show K ∈ trAppendKeys (st.trace ++ _)
            rw [trAppendKeys_append]
            exact List.mem_append.mpr (Or.inl ht))
    · rw [heq]
      constructor
      · show checkAddKeys (st.trace ++ _) [] = true
        rw [checkAddKeys_append, h1]
        simp [checkAddKeys]
      · intro K hK
        rcases h2 K hK with hi | ht
        · exact Or.inl hi
        · exact Or.inr (by
            show K ∈ trAppendKeys (st.trace ++ _)
            rw [trAppendKeys_append]
            exact List.mem_append.mpr (Or.inl ht))
    · rw [heq]
      constructor
      · show checkAddKeys (st.trace ++ _ ++ _ ++ _) [] = true
        simp only [List.append_assoc]
        rw [checkAddKeys_append, h1]
        cases recommended <;> simp [checkAddKeys]
      · intro K hK
        simp only [List.mem_cons] at hK
        rcases hK with rfl | hK
        · refine Or.inr ?_
          simp only [List.append_assoc]
          rw [trAppendKeys_append]
          refine List.mem_append.mpr (Or.inr ?_)
          cases recommended <;> simp [trAppendKeys]
        · rcases h2 K hK with hi | ht
          · exact Or.inl hi
          · refine Or.inr ?_
            simp only [List.append_assoc]
            rw [trAppendKeys_append]
            exact List.mem_append.mpr (Or.inl ht)

theorem runItems_commitInv (init : List String) (cfg : TaskCfg)
    (items : List (SearchItem × ItemEnv)) (st : ScrapeState)
    (h1 : checkAddKeys st.trace [] = true)
    (h2 : ∀ K, K ∈ st.processed → K ∈ init ∨ K ∈ trAppendKeys st.trace) :
    checkAddKeys (runItems cfg items st).trace [] = true ∧
    ∀ K, K ∈ (runItems cfg items st).processed →
      K ∈ init ∨ K ∈ trAppendKeys (runItems cfg items st).trace := by
  induction items generalizing st with
  | nil => exact ⟨h1, h2⟩
  | cons p rest ih =>
    obtain ⟨item, env⟩ := p
    simp only [runItems]
    by_cases hd : 0 < cfg.debug_limit ∧ cfg.debug_limit ≤ st.count
    · simp only [if_pos hd]
      exact ⟨h1, h2⟩
    · simp only [if_neg hd]
      have hstep := itemStep_commitInv init cfg item env st h1 h2
      by_cases hs : (itemStep cfg item env st).stop = true
      · simp only [hs, if_true]
        exact hstep
      · simp only [hs, if_false, Bool.false_eq_true]
        exact ih _ hstep.1 hstep.2

theorem runPages_commitInv (init : List String) (cfg : TaskCfg)
    (pages : List (List (SearchItem × ItemEnv))) (st : ScrapeState)
    (h1 : checkAddKeys st.trace [] = true)
    (h2 : ∀ K, K ∈ st.processed → K ∈ init ∨ K ∈ trAppendKeys st.trace) :
    checkAddKeys (runPages cfg pages st).trace [] = true ∧
    ∀ K, K ∈ (runPages cfg pages st).processed →
      K ∈ init ∨ K ∈ trAppendKeys (runPages cfg pages st).trace := by
  induction pages generalizing st with
  | nil => exact ⟨h1, h2⟩
  | cons pg rest ih =>
    simp only [runPages]
    by_cases hs : st.stop = true
    · simp only [hs, if_true]
      exact ⟨h1, h2⟩
    · simp only [hs, if_false, Bool.false_eq_true]
      by_cases he : pg.isEmpty = true
      · simp only [he, if_true]
        exact ⟨h1, h2⟩
      · simp only [he, if_false, Bool.false_eq_true]
        have hstep := runItems_commitInv init cfg pg st h1 h2
        exact ih _ hstep.1 hstep.2

/-- C3 (amended): in every run, a dedup key is inserted into the in-memory
processed set only after the unified record has been fully assembled and
the append to the history file has been attempted — every `addKey` in the
trace is preceded by an `append` carrying that key, and every key in the
final processed set beyond the loaded history has an `append` event in the
trace; an item interrupted before the save call is never inserted.
However, the insertion does not depend on the append's success: the
boolean result of `save_to_jsonl` is ignored (see `c3_counterexample`). -/
theorem c3_insert_after_append_attempt (cfg : TaskCfg)
    (pages : List (List (SearchItem × ItemEnv))) (init : List String) :
    checkAddKeys (runScrape cfg pages init).trace [] = true ∧
    ∀ K, K ∈ (runScrape cfg pages init).processed →
      K ∈ init ∨ K ∈ trAppendKeys (runScrape cfg pages init).trace :=
  runPages_commitInv init cfg pages
    { processed := init, count := 0, stop := false, trace := [] }
    rfl (fun _ hK => Or.inl hK)

/-- C3 counterexample to the frozen claim: with a failing writer
(`save_to_jsonl` returns `False` on `IOError`), the run still inserts the
item's key into the processed set — the trace holds no successful append
for it, only a failed attempt. -/
theorem c3_counterexample :
    "L" ∈ (runScrape ⟨"kw", "tn", "", 0⟩
        [[(⟨"L&y", "id1", "t1"⟩,
           ⟨DetailOutcome.okJson (PyVal.dict []), fun _ => Option.none,
            PyVal.dict [], false, 0⟩)]] []).processed ∧
    trSuccAppendKeys (runScrape ⟨"kw", "tn", "", 0⟩
        [[(⟨"L&y", "id1", "t1"⟩,
           ⟨DetailOutcome.okJson (PyVal.dict []), fun _ => Option.none,
            PyVal.dict [], false, 0⟩)]] []).trace = [] ∧
    trAppendKeys (runScrape ⟨"kw", "tn", "", 0⟩
        [[(⟨"L&y", "id1", "t1"⟩,
           ⟨DetailOutcome.okJson (PyVal.dict []), fun _ => Option.none,
            PyVal.dict [], false, 0⟩)]] []).trace = ["L"] :=
  ⟨by decide, rfl, rfl⟩

/-- Closed instance of `c3_insert_after_append_attempt`: a one-item run
passes the insertion-after-append check, and its one new key has an append
event. -/
theorem c3_witness :
    checkAddKeys (runScrape ⟨"kw", "tn", "", 0⟩
        [[(⟨"M&y", "id2", "t2"⟩,
           ⟨DetailOutcome.okJson (PyVal.dict []), fun _ => Option.none,
            PyVal.dict [], true, 0⟩)]] []).trace [] = true ∧
    ("M" ∈ (runScrape ⟨"kw", "tn", "", 0⟩
        [[(⟨"M&y", "id2", "t2"⟩,
           ⟨DetailOutcome.okJson (PyVal.dict []), fun _ => Option.none,
            PyVal.dict [], true, 0⟩)]] []).processed →
      "M" ∈ [] ∨ "M" ∈ trAppendKeys (runScrape ⟨"kw", "tn", "", 0⟩
        [[(⟨"M&y", "id2", "t2"⟩,
           ⟨DetailOutcome.okJson (PyVal.dict []), fun _ => Option.none,
            PyVal.dict [], true, 0⟩)]] []).trace) :=
  ⟨(c3_insert_after_append_attempt ⟨"kw", "tn", "", 0⟩
      [[(⟨"M&y", "id2", "t2"⟩,
         ⟨DetailOutcome.okJson (PyVal.dict []), fun _ => Option.none,
          PyVal.dict [], true, 0⟩)]] []).1,
   (c3_insert_after_append_attempt ⟨"kw", "tn", "", 0⟩
      [[(⟨"M&y", "id2", "t2"⟩,
         ⟨DetailOutcome.okJson (PyVal.dict []), fun _ => Option.none,
          PyVal.dict [], true, 0⟩)]] []).2 "M"⟩

theorem retryGo_used_le (attempts : Nat → Except String PyVal)
    (delay : Nat) : ∀ rem i, (retryGo attempts delay i rem).2.1 ≤ rem := by
  intro rem
  induction rem with
  | zero => intro i; simp [retryGo]
  | succ rem ih =>
    intro i
    simp only [retryGo]
    cases attempts i with
    | ok v => simp
    | error e =>
      by_cases hz : rem = 0
      · simp [hz]
      · simp only [hz, if_false]
        have := ih (i + 1)
        cases hgo : retryGo attempts delay (i + 1) rem with
        | mk r p =>
          obtain ⟨used, ds⟩ := p
          rw [hgo] at this
          simpa using this

theorem retryGo_delays (attempts : Nat → Except String PyVal)
    (delay : Nat) : ∀ rem i, ∀ d ∈ (retryGo attempts delay i rem).2.2,
      d = delay := by
  intro rem
  induction rem with
  | zero => intro i d hd; simp [retryGo] at hd
  | succ rem ih =>
    intro i d hd
    simp only [retryGo] at hd
    cases hat : attempts i with
    | ok v => rw [hat] at hd; simp at hd
    | error e =>
      rw [hat] at hd
      by_cases hz : rem = 0
      · simp [hz] at hd
      · simp only [hz, if_false] at hd
        have := ih (i + 1)
        cases hgo : retryGo attempts delay (i + 1) rem with
        | mk r p =>
          obtain ⟨used, ds⟩ := p
          rw [hgo] at hd this
          simp at hd
          rcases hd with rfl | hd
          · rfl
          · exact this d hd

theorem retryGo_all_fail (attempts : Nat → Except String PyVal)
    (delay : Nat) : ∀ rem i,
      (∀ k, k < rem → ∃ e, attempts (i + k) = Except.error e) →
      retryGo attempts delay i rem =
        (Option.none, rem, List.replicate (rem - 1) delay) := by
  intro rem
  induction rem with
  | zero => intro i _; rfl
  | succ rem ih =>
    intro i h
    obtain ⟨e, he⟩ := h 0 (by omega)
    simp only [Nat.add_zero] at he
    simp only [retryGo, he]
    by_cases hz : rem = 0
    · simp [hz]
    · simp only [hz, if_false]
      rw [ih (i + 1) (fun k hk => by
        obtain ⟨e2, he2⟩ := h (k + 1) (by omega)
        exact ⟨e2, by rw [← he2]; congr 1; omega⟩)]
      simp only [Nat.succ_sub_one]
      have hrep : List.replicate rem delay =
          delay :: List.replicate (rem - 1) delay := by
        cases rem with
        | zero => exact absurd rfl hz
        | succ m => simp [List.replicate_succ]
      rw [hrep]

/-- C5: the external analysis call is wrapped by `retry_on_failure` with 5
attempts and a fixed 10-second delay between consecutive attempts; a
JSON-decode failure of the AI response is re-raised and so consumes one
attempt; when every attempt fails the wrapper returns nothing after
exactly 5 attempts and 4 fixed delays, and the item loop then records the
error-marker dict in `ai_analysis`, still appends the record to the
history file, and continues with the next item instead of aborting. -/
theorem c5_retry_and_error_marker :
    (∀ responses : Nat → Option String,
        (get_ai_analysis responses).2.1 ≤ 5 ∧
        ∀ d ∈ (get_ai_analysis responses).2.2, d = 10) ∧
    (∀ txt, get_ai_analysis_parse pyJsonLoads txt = Option.none →
        aiAttempt (some txt) = Except.error "JSONDecodeError") ∧
    (∀ responses : Nat → Option String,
        (∀ i, i < 5 → ∃ e, aiAttempt (responses i) = Except.error e) →
        get_ai_analysis responses = (Option.none, 5, [10, 10, 10, 10])) ∧
    (∀ (cfg : TaskCfg) (item : SearchItem) (env : ItemEnv)
        (st : ScrapeState) (j : PyVal) (rest : List (SearchItem × ItemEnv)),
        get_link_unique_key item.item_link ∉ st.processed →
        env.detail = DetailOutcome.okJson j →
        blockSignal j = false →
        cfg.ai_prompt_text ≠ "" →
        (∀ i, i < 5 → ∃ e, aiAttempt (env.aiResponses i) = Except.error e) →
        ¬(0 < cfg.debug_limit ∧ cfg.debug_limit ≤ st.count) →
        st.stop = false →
        itemStep cfg item env st =
          { st with
            processed := get_link_unique_key item.item_link :: st.processed,
            count := st.count + 1,
            trace := st.trace ++
              [Ev.fetchDetail (get_link_unique_key item.item_link),
               Ev.append
                 { search_keyword := cfg.keyword, task_name := cfg.task_name,
                   item_info := item, seller_info := env.sellerInfo,
                   ai_analysis := some aiErrorMarker } env.writeOk,
               Ev.addKey (get_link_unique_key item.item_link)] } ∧
        runItems cfg ((item, env) :: rest) st =
          runItems cfg rest (itemStep cfg item env st)) := by
  have hfail : ∀ responses : Nat → Option String,
      (∀ i, i < 5 → ∃ e, aiAttempt (responses i) = Except.error e) →
      get_ai_analysis responses = (Option.none, 5, [10, 10, 10, 10]) := by
    intro responses h
    unfold get_ai_analysis retry_on_failure
    rw [retryGo_all_fail _ _ 5 0 (fun k hk => by
      obtain ⟨e, he⟩ := h k hk
      exact ⟨e, by simpa using he⟩)]
    rfl
  refine ⟨?_, ?_, hfail, ?_⟩
  · intro responses
    exact ⟨retryGo_used_le _ _ 5 0, retryGo_delays _ _ 5 0⟩
  · intro txt hparse
    simp [aiAttempt, hparse]
  · intro cfg item env st j rest hmem hdet hblock hprompt hattempts hdebug
      hnostop
    have hstep : itemStep cfg item env st =
        { st with
          processed := get_link_unique_key item.item_link :: st.processed,
          count := st.count + 1,
          trace := st.trace ++
            [Ev.fetchDetail (get_link_unique_key item.item_link),
             Ev.append
               { search_keyword := cfg.keyword, task_name := cfg.task_name,
                 item_info := item, seller_info := env.sellerInfo,
                 ai_analysis := some aiErrorMarker } env.writeOk,
             Ev.addKey (get_link_unique_key item.item_link)] } := by
      unfold itemStep
      rw [if_neg hmem, hdet]
      simp only [hblock, Bool.false_eq_true, if_false]
      rw [if_pos hprompt, hfail env.aiResponses hattempts]
      unfold commitItem
      simp [List.append_assoc, hprompt]
    refine ⟨hstep, ?_⟩
    simp only [runItems]
    rw [if_neg hdebug]
    have hstop : (itemStep cfg item env st).stop = false := by
      rw [hstep]
      exact hnostop
    simp only [hstop, Bool.false_eq_true, if_false]

/-- Closed instance of `c5_retry_and_error_marker`: with every AI attempt
failing, the wrapper makes exactly 5 attempts with the 4 fixed delays, and
the item is still committed with the error-marker `ai_analysis` while the
loop keeps going. -/
theorem c5_witness :
    get_ai_analysis (fun _ => Option.none) =
      (Option.none, 5, [10, 10, 10, 10]) ∧
    itemStep ⟨"kw", "tn", "p", 0⟩ ⟨"L&y", "id1", "t1"⟩
        ⟨DetailOutcome.okJson (PyVal.dict []), fun _ => Option.none,
         PyVal.dict [], true, 0⟩ ⟨[], 0, false, []⟩ =
      ⟨["L"], 1, false,
       [Ev.fetchDetail "L",
        Ev.append ⟨"kw", "tn", ⟨"L&y", "id1", "t1"⟩, PyVal.dict [],
          some aiErrorMarker⟩ true,
        Ev.addKey "L"]⟩ := by
  constructor
  · exact c5_retry_and_error_marker.2.2.1 (fun _ => Option.none)
      (fun i _ => ⟨"HTTPError", rfl⟩)
  · have h := (c5_retry_and_error_marker.2.2.2 ⟨"kw", "tn", "p", 0⟩
      ⟨"L&y", "id1", "t1"⟩
      ⟨DetailOutcome.okJson (PyVal.dict []), fun _ => Option.none,
       PyVal.dict [], true, 0⟩ ⟨[], 0, false, []⟩ (PyVal.dict []) []
      (by simp) rfl (by decide) (by decide)
      (fun i _ => ⟨"HTTPError", rfl⟩) (by simp) rfl).1
    rw [h]
    rfl

/-- C7: when an item's detail payload carries the validation-failure block
code, the run sleeps a randomized cooldown that always lies between 300
and 600 seconds inclusive, sets the stop flag, leaves the processed count
(the task's return value) and everything else untouched, stops the current
page at that item, and every remaining page is skipped unchanged — so no
further record is appended after the signal. -/
theorem c7_block_cooldown_terminates :
    (∀ (cfg : TaskCfg) (item : SearchItem) (env : ItemEnv)
        (st : ScrapeState) (j : PyVal) (rest : List (SearchItem × ItemEnv)),
        get_link_unique_key item.item_link ∉ st.processed →
        env.detail = DetailOutcome.okJson j →
        blockSignal j = true →
        ¬(0 < cfg.debug_limit ∧ cfg.debug_limit ≤ st.count) →
        runItems cfg ((item, env) :: rest) st =
          { st with
            stop := true,
            trace := st.trace ++
              [Ev.fetchDetail (get_link_unique_key item.item_link),
               Ev.blockSleep (pyRandint 300 600 env.blockRand)] } ∧
        300 ≤ pyRandint 300 600 env.blockRand ∧
        pyRandint 300 600 env.blockRand ≤ 600) ∧
    (∀ (cfg : TaskCfg) (pages : List (List (SearchItem × ItemEnv)))
        (st : ScrapeState), st.stop = true → runPages cfg pages st = st) := by
  constructor
  · intro cfg item env st j rest hmem hdet hblock hdebug
    have hstep : itemStep cfg item env st =
        { st with
          stop := true,
          trace := st.trace ++
            [Ev.fetchDetail (get_link_unique_key item.item_link),
             Ev.blockSleep (pyRandint 300 600 env.blockRand)] } := by
      unfold itemStep
      rw [if_neg hmem, hdet]
      simp [hblock, List.append_assoc]
    refine ⟨?_, ?_, ?_⟩
    · simp only [runItems]
      rw [if_neg hdebug]
      have hstop : (itemStep cfg item env st).stop = true := by rw [hstep]
      simp only [hstop, if_true]
      exact hstep
    · unfold pyRandint
      omega
    · unfold pyRandint
      have := Nat.mod_lt env.blockRand (show 0 < 600 + 1 - 300 by omega)
      omega
  · intro cfg pages st h
    cases pages with
    | nil => rfl
    | cons pg rest => simp [runPages, h]

/-- Closed instance of `c7_block_cooldown_terminates`: a page whose first
item answers with the block code stops the run after the cooldown sleep;
the second item of the page is never touched and the count stays 0. -/
theorem c7_witness :
    runItems ⟨"kw", "tn", "", 0⟩
        [(⟨"M&y", "id2", "t2"⟩,
          ⟨DetailOutcome.okJson (PyVal.dict [("ret",
             PyVal.list [PyVal.str "FAIL_SYS_USER_VALIDATE::barrier"])]),
           fun _ => Option.none, PyVal.dict [], true, 7⟩),
         (⟨"L&y", "id1", "t1"⟩,
          ⟨DetailOutcome.timeout, fun _ => Option.none,
           PyVal.dict [], true, 0⟩)]
        ⟨[], 0, false, []⟩ =
      ⟨[], 0, true,
       [Ev.fetchDetail "M", Ev.blockSleep (pyRandint 300 600 7)]⟩ ∧
    300 ≤ pyRandint 300 600 7 ∧ pyRandint 300 600 7 ≤ 600 := by
  have h := c7_block_cooldown_terminates.1 ⟨"kw", "tn", "", 0⟩
    ⟨"M&y", "id2", "t2"⟩
    ⟨DetailOutcome.okJson (PyVal.dict [("ret",
       PyVal.list [PyVal.str "FAIL_SYS_USER_VALIDATE::barrier"])]),
     fun _ => Option.none, PyVal.dict [], true, 7⟩
    ⟨[], 0, false, []⟩
    (PyVal.dict [("ret",
       PyVal.list [PyVal.str "FAIL_SYS_USER_VALIDATE::barrier"])])
    [(⟨"L&y", "id1", "t1"⟩,
      ⟨DetailOutcome.timeout, fun _ => Option.none,
       PyVal.dict [], true, 0⟩)]
    (by simp) rfl (by decide) (by simp)
  exact ⟨h.1.trans (by rfl), h.2.1, h.2.2⟩

end Spider
